import Mathlib

/-!
Shallow embedding of the API-Labs front-end labs.

Sources embedded here:
* src/unnamed/part_000 : NASA image-search lab (truncate, buildQuery, handleSubmit,
  handleError, AbortController single-flight logic).
* src/unnamed/part_001 : Twinword text-analytics lab (extractKeywords, escapeHtml).
* src/Lab5/app.js      : OpenWeather lab (handleSubmit, persistPreferences,
  restorePreferences) and MeaningCloud lab (extractKeywords, escapeHtml).
* src/Lab3/script.js   : Nominatim/Overpass lab (fetchPlaces normalization,
  form submit handler).

JavaScript strings are modelled as lists of characters (UTF-16 code units are
modelled as Lean characters); JavaScript numbers are modelled as rationals, with
Option used where a value can be undefined or NaN after conversion.
-/

/-- Whitespace test used by the model of the JavaScript trim method. -/
def isJsSpace (c : Char) : Bool :=
  c = ' ' || c = '\t' || c = '\n' || c = '\r'

/-- Model of the JavaScript trim method on a list of characters: removes
whitespace from both ends. -/
def jsTrim (s : List Char) : List Char :=
  ((s.dropWhile isJsSpace).reverse.dropWhile isJsSpace).reverse

/-- Model of the JavaScript trim method on strings. -/
def jsTrimS (s : String) : String :=
  String.mk (jsTrim s.data)

/-- Placeholder returned by truncate for a missing or empty description
(src/unnamed/part_000 line 33). -/
def descriptionPlaceholder : List Char :=
  "Описание отсутствует".data

/-- Embedding of truncate from src/unnamed/part_000 lines 31-41.
A missing or empty text (falsy in JavaScript) yields the placeholder; texts of
length at most the limit are returned unchanged; longer texts are cut to
limit - 1 characters, trimmed, and an ellipsis is appended. -/
def truncate (text : Option (List Char)) (limit : Nat := 200) : List Char :=
  match text with
  | none => descriptionPlaceholder
  | some t =>
    if t = [] then descriptionPlaceholder
    else if t.length ≤ limit then t
    else jsTrim (t.take (limit - 1)) ++ ('.' :: '.' :: '.' :: [])

/-- The apostrophe character, written by code point to keep the source plain. -/
def apos : Char := Char.ofNat 39

/-- Per-character replacement table of escapeHtml
(src/Lab5/app.js lines 674-687 and src/unnamed/part_001 lines 354-366). -/
def escapeChar (c : Char) : List Char :=
  if c = '&' then '&' :: 'a' :: 'm' :: 'p' :: ';' :: []
  else if c = '<' then '&' :: 'l' :: 't' :: ';' :: []
  else if c = '>' then '&' :: 'g' :: 't' :: ';' :: []
  else if c = '"' then '&' :: 'q' :: 'u' :: 'o' :: 't' :: ';' :: []
  else if c = apos then '&' :: '#' :: '3' :: '9' :: ';' :: []
  else [c]

/-- Embedding of escapeHtml: the regex replace over the whole string is the
concatenation of the per-character replacements; a nullish input is first
coerced to the empty string. -/
def escapeHtml (text : Option (List Char)) : List Char :=
  (text.getD []).flatMap escapeChar

section SortByKey

variable {α : Type}

/-- Ordering relation produced by the JavaScript comparator
(a, b) => keyOf b - keyOf a: a may come before b exactly when the comparator
is nonpositive, i.e. descending order of the numeric key. -/
def byKeyDesc (keyOf : α → ℚ) (a b : α) : Prop := keyOf b ≤ keyOf a

instance (keyOf : α → ℚ) : DecidableRel (byKeyDesc keyOf) :=
  fun a b => inferInstanceAs (Decidable (keyOf b ≤ keyOf a))

instance (keyOf : α → ℚ) : IsTotal α (byKeyDesc keyOf) :=
  ⟨fun a b => le_total (keyOf b) (keyOf a)⟩

instance (keyOf : α → ℚ) : IsTrans α (byKeyDesc keyOf) :=
  ⟨fun _ _ _ h₁ h₂ => le_trans h₂ h₁⟩

/-- A stable descending sort by a numeric key leaves each equal-key fiber of
the list unchanged: ties keep their arrival order. -/
theorem filter_key_insertionSort (keyOf : α → ℚ) (l : List α) (w : ℚ) :
    (List.insertionSort (byKeyDesc keyOf) l).filter (fun a => keyOf a == w) =
      l.filter (fun a => keyOf a == w) := by
  have hpair : (l.filter (fun a => keyOf a == w)).Pairwise (byKeyDesc keyOf) := by
    apply List.pairwise_of_forall_mem_list
    intro a ha b hb
    have ha' : keyOf a = w := by
      simpa using (List.mem_filter.mp ha).2
    have hb' : keyOf b = w := by
      simpa using (List.mem_filter.mp hb).2
    unfold byKeyDesc
    rw [ha', hb']
  have hsub : (l.filter (fun a => keyOf a == w)).Sublist
      (List.insertionSort (byKeyDesc keyOf) l) :=
    List.sublist_insertionSort hpair (List.filter_sublist l)
  have hsub2 : (l.filter (fun a => keyOf a == w)).Sublist
      ((List.insertionSort (byKeyDesc keyOf) l).filter (fun a => keyOf a == w)) := by
    have h := hsub.filter (fun a => keyOf a == w)
    have hself : (l.filter (fun a => keyOf a == w)).filter (fun a => keyOf a == w) =
        l.filter (fun a => keyOf a == w) :=
      List.filter_eq_self.mpr (fun a ha => (List.mem_filter.mp ha).2)
    rwa [hself] at h
  have hlen : ((List.insertionSort (byKeyDesc keyOf) l).filter
      (fun a => keyOf a == w)).length = (l.filter (fun a => keyOf a == w)).length :=
    ((List.perm_insertionSort (byKeyDesc keyOf) l).filter _).length_eq
  exact (hsub2.eq_of_length hlen.symm).symm

end SortByKey

/-- Normalized keyword record built by extractKeywords in
src/unnamed/part_001 lines 312-322. -/
structure TwItem where
  label : String
  weight : ℚ
  source : String
deriving DecidableEq, Repr

/-- Payload of the Twinword keyword endpoint: the keyword field is an object
mapping labels to weights, modelled as an association list in property order;
a weight is None when its Number conversion yields NaN. -/
structure TwPayload where
  keyword : Option (List (String × Option ℚ))

/-- The list built by extractKeywords before sorting: Object.entries mapped to
records (Number(weight) or 0 on NaN) and filtered to truthy labels. -/
def twArrival (data : TwPayload) : List TwItem :=
  ((data.keyword.getD []).map (fun kv =>
      { label := kv.1, weight := kv.2.getD 0, source := "Twinword" })).filter
    (fun item => item.label != "")

/-- Embedding of extractKeywords from src/unnamed/part_001 lines 312-322:
map, filter, then sort by the comparator (a, b) => b.weight - a.weight. -/
def extractKeywordsTw (data : TwPayload) : List TwItem :=
  List.insertionSort (byKeyDesc TwItem.weight) (twArrival data)

/-- Normalized keyword record built by extractKeywords in
src/Lab5/app.js lines 588-604. -/
structure McItem where
  label : String
  source : String
  relevance : ℚ
deriving DecidableEq, Repr

/-- One entry of concept_list: form and relevance may be absent. -/
structure McConcept where
  form : Option String
  relevance : Option ℚ

/-- One entry of entity_list: form, sementity type and relevance may be absent. -/
structure McEntity where
  form : Option String
  sementityType : Option String
  relevance : Option ℚ

/-- Payload of the MeaningCloud topics endpoint. -/
structure McPayload where
  concept_list : Option (List McConcept)
  entity_list : Option (List McEntity)

/-- Model of the JavaScript expression v || d on strings: the fallback is used
when v is undefined or empty. -/
def jsOr (v : Option String) (d : String) : String :=
  match v with
  | some s => if s = "" then d else s
  | none => d

/-- The list built by extractKeywords in src/Lab5/app.js before sorting:
concepts then entities, mapped to records and filtered to truthy labels. -/
def mcArrival (data : McPayload) : List McItem :=
  (((data.concept_list.getD []).map (fun item =>
        { label := item.form.getD "", source := "Concept",
          relevance := item.relevance.getD 0 : McItem })) ++
    ((data.entity_list.getD []).map (fun item =>
        { label := item.form.getD "", source := jsOr item.sementityType "Entity",
          relevance := item.relevance.getD 0 : McItem }))).filter
    (fun item => item.label != "")

/-- Embedding of extractKeywords from src/Lab5/app.js lines 588-604. -/
def extractKeywordsMc (data : McPayload) : List McItem :=
  List.insertionSort (byKeyDesc McItem.relevance) (mcArrival data)

/-- Overpass element kind. -/
inductive EType where
  | node
  | way
  | relation
deriving DecidableEq, Repr

/-- One element of the Overpass response (src/Lab3/script.js lines 72-103):
nodes carry lat and lon directly (possibly absent), ways and relations carry an
optional center; tags is an object modelled as an association list. -/
structure Element where
  etype : EType
  id : Nat
  lat : Option ℚ
  lon : Option ℚ
  center : Option (ℚ × ℚ)
  tags : List (String × String)

/-- Normalized place record returned by fetchPlaces. -/
structure Place where
  id : Nat
  etype : EType
  lat : Option ℚ
  lon : Option ℚ
  name : String
  category : String
  address : String
  tags : List (String × String)
deriving DecidableEq, Repr

/-- Embedding of the latLng computation in src/Lab3/script.js lines 75-81:
nodes always produce a coordinate pair object (whose components may be
undefined), other kinds use the optional center. -/
def latLngOf (e : Element) : Option (Option ℚ × Option ℚ) :=
  match e.etype with
  | EType.node => some (e.lat, e.lon)
  | _ => e.center.map (fun c => (some c.1, some c.2))

/-- Embedding of inferCategory from src/Lab3/script.js lines 108-138. -/
def inferCategory (tags : List (String × String)) : String :=
  let tourism := (List.lookup "tourism" tags).getD ""
  if tourism != "" then
    if tourism = "museum" then "Музей"
    else if tourism = "art_gallery" then "Художественная галерея"
    else if tourism = "attraction" then "Достопримечательность"
    else if tourism = "zoo" then "Зоопарк"
    else if tourism = "theme_park" then "Парк развлечений"
    else "Tourism: " ++ tourism
  else
    let amenity := (List.lookup "amenity" tags).getD ""
    if amenity != "" then
      if amenity = "theatre" then "Театр"
      else if amenity = "arts_centre" then "Центр искусств"
      else "Amenity: " ++ amenity
    else "Объект"

/-- Embedding of buildAddress from src/Lab3/script.js lines 140-151. -/
def buildAddress (tags : List (String × String)) : String :=
  let street := (List.lookup "addr:street" tags).getD ""
  let house := (List.lookup "addr:housenumber" tags).getD ""
  let first := if street != "" then street ++ (if house != "" then ", " ++ house else "") else ""
  let parts := [first, (List.lookup "addr:city" tags).getD "",
    (List.lookup "addr:state" tags).getD "", (List.lookup "addr:country" tags).getD ""]
  String.intercalate ", " (parts.filter (fun p => p != ""))

/-- Deduplication key of fetchPlaces: the template string
name, colon, lat, colon, lon is injective in the triple (name, lat, lon)
because the numeric parts never contain a colon, so the key is modelled as the
triple itself. -/
abbrev GeoKey := String × Option ℚ × Option ℚ

/-- Element-to-place core of the map callback in src/Lab3/script.js
lines 73-103, without the seen-set: elements without coordinates map to null. -/
def mapElement (e : Element) : Option Place :=
  match latLngOf e with
  | none => none
  | some latLng =>
    some { id := e.id, etype := e.etype, lat := latLng.1, lon := latLng.2,
           name := jsOr (List.lookup "name" e.tags) "Без названия",
           category := inferCategory e.tags,
           address := buildAddress e.tags,
           tags := e.tags }

/-- Key used by the seen-set in src/Lab3/script.js line 87. -/
def exactKey (p : Place) : GeoKey := (p.name, p.lat, p.lon)

/-- The stateful map over elements of src/Lab3/script.js lines 72-104 with its
mutable seen-set made explicit, already composed with the filter of nulls:
an element whose key was already seen is dropped, otherwise its key is added
to the seen-set. -/
def processElements (seen : List GeoKey) : List Element → List Place
  | [] => []
  | e :: rest =>
    match mapElement e with
    | none => processElements seen rest
    | some p =>
      if exactKey p ∈ seen then processElements seen rest
      else p :: processElements (exactKey p :: seen) rest

/-- Ordering on characters used to model localeCompare: code-point order
(the exact Russian collation of the browser is irrelevant to the claims,
which only depend on the sort being a permutation). -/
def charListLe : List Char → List Char → Bool
  | [], _ => true
  | _ :: _, [] => false
  | a :: as, b :: bs => if a = b then charListLe as bs else decide (a.val < b.val)

/-- Comparator of the final sort in src/Lab3/script.js line 105. -/
def nameLe (a b : Place) : Prop := charListLe a.name.data b.name.data = true

instance : DecidableRel nameLe :=
  fun a b => inferInstanceAs (Decidable (charListLe a.name.data b.name.data = true))

/-- Embedding of the normalization pipeline of fetchPlaces
(src/Lab3/script.js lines 70-106): stateful dedup map, filter of nulls,
then sort by name. -/
def fetchPlacesNormalize (elements : List Element) : List Place :=
  List.insertionSort nameLe (processElements [] elements)

/-- Specification-side dedup: keep the first occurrence of each key, dropping
every later element whose key was already kept or initially excluded. -/
def keepFirst (seen : List GeoKey) : List Place → List Place
  | [] => []
  | p :: rest =>
    if exactKey p ∈ seen then keepFirst seen rest
    else p :: keepFirst (exactKey p :: seen) rest

/-- Modelled from the spec: rounding of a coordinate to five decimal places,
as in the rounded-coordinate key the specification describes for geo results. -/
def round5 (q : ℚ) : ℚ := (round (q * 100000) : ℤ) / 100000

/-- Modelled from the spec: the dedup key with rounded coordinates that the
specification claims fetchPlaces uses. -/
def roundedKey (p : Place) : GeoKey := (p.name, p.lat.map round5, p.lon.map round5)

/-- Outcome of a form submit handler: either a validation message written to
the status element with no network call, or an outbound request described by
its ordered query parameters. -/
inductive SubmitOutcome where
  | validation (msg : String)
  | request (params : List (String × String))
deriving DecidableEq, Repr

/-- Numeric value of a list of decimal digit characters. -/
def digitsVal (ds : List Char) : Nat :=
  ds.foldl (fun n c => n * 10 + (c.toNat - 48)) 0

/-- Model of the JavaScript parseInt with radix 10 on an already trimmed
string: an optional sign followed by the longest digit prefix; none models NaN
when no digit is present. -/
def parseIntJs (s : String) : Option Int :=
  let (sign, rest) : Int × List Char :=
    match s.data with
    | '-' :: t => (-1, t)
    | '+' :: t => (1, t)
    | t => (1, t)
  let ds := rest.takeWhile Char.isDigit
  if ds = [] then none else some (sign * (digitsVal ds : Int))

/-- Embedding of buildQuery from src/unnamed/part_000 lines 43-55: the ordered
query parameters of the request URL (URLSearchParams serialization is left
abstract). -/
def buildQuery (query mediaType year : String) : List (String × String) :=
  [("q", query), ("page", "1"),
   ("media_type", if mediaType = "all" then "image,video" else mediaType)] ++
  (if year != "" then [("year_start", year), ("year_end", year)] else [])

/-- Validation message for an out-of-range year (src/unnamed/part_000 line 180). -/
def yearRangeMsg : String := "Введите корректный год в диапазоне 1920–2100."

/-- Embedding of the validation and request-building part of handleSubmit from
src/unnamed/part_000 lines 164-199: trims the fields, rejects an empty query,
rejects a year outside 1920 to 2100, and otherwise issues the request built by
buildQuery. -/
def nasaSubmit (queryRaw mediaType yearRaw : String) : SubmitOutcome :=
  let query := jsTrimS queryRaw
  let rawYear := jsTrimS yearRaw
  if query = "" then SubmitOutcome.validation "Введите поисковый запрос."
  else if rawYear != "" then
    match parseIntJs rawYear with
    | none => SubmitOutcome.validation yearRangeMsg
    | some y =>
      if y < 1920 ∨ 2100 < y then SubmitOutcome.validation yearRangeMsg
      else SubmitOutcome.request (buildQuery query mediaType (toString y))
  else SubmitOutcome.request (buildQuery query mediaType "")

/-- Embedding of the validation part of the Lab3 submit handler
(src/Lab3/script.js lines 212-224): an empty trimmed query is rejected,
otherwise the geocoding request to Nominatim is issued with the fixed
parameters of lines 25-32. -/
def lab3Submit (queryRaw : String) : SubmitOutcome :=
  let searchQuery := jsTrimS queryRaw
  if searchQuery = "" then SubmitOutcome.validation "Введите адрес или город."
  else SubmitOutcome.request
    [("format", "json"), ("q", searchQuery), ("limit", "1"),
     ("addressdetails", "1"), ("extratags", "1")]

/-- Embedding of the validation and request-building part of handleSubmit from
src/Lab5/app.js lines 33-48. -/
def lab5Submit (apiKeyRaw cityRaw : String) : SubmitOutcome :=
  let apiKey := jsTrimS apiKeyRaw
  let city := jsTrimS cityRaw
  if apiKey = "" ∨ city = "" then SubmitOutcome.validation "Введите API ключ и город"
  else SubmitOutcome.request
    [("q", city), ("appid", apiKey), ("units", "metric"), ("lang", "ru")]

/-- A JavaScript error value as observed by handleError: its name and message. -/
structure JsError where
  name : String
  message : String

/-- Text written by handleError for a non-aborted failure
(src/unnamed/part_000 line 160). -/
def fetchFailedMsg : String := "Не удалось получить данные. Попробуйте позже."

/-- Embedding of handleError from src/unnamed/part_000 lines 154-162 as a
function from the error and the current status text to the new status text:
an AbortError returns without touching the status. -/
def handleError (e : JsError) (status : String) : String :=
  if e.name = "AbortError" then status else fetchFailedMsg

/-- The localStorage key-value surface. -/
def Store := String → Option String

/-- Model of localStorage.setItem. -/
def setItem (s : Store) (k v : String) : Store :=
  fun k' => if k' = k then some v else s k'

/-- Model of localStorage.getItem (null when absent). -/
def getItem (s : Store) (k : String) : Option String := s k

/-- The three form fields touched by the Lab5 preference round-trip. -/
structure FormFields where
  apiKey : String
  city : String
  metric : String
deriving DecidableEq, Repr

/-- Keys of the metricConfig object in src/Lab5/app.js lines 12-17. -/
def metricConfigKeys : List String := ["temp", "feels_like", "temp_min", "temp_max"]

/-- Embedding of persistPreferences from src/Lab5/app.js lines 253-261:
three setItem calls in source order; the metric argument is the current value
of the metric select. -/
def persistPreferences (apiKey city metric : String) (s : Store) : Store :=
  setItem (setItem (setItem s "ow_apiKey" apiKey) "ow_city" city) "ow_metric" metric

/-- Embedding of restorePreferences from src/Lab5/app.js lines 234-251:
each field is overwritten only by a truthy stored value, and the metric only
when it is a key of metricConfig. -/
def restorePreferences (s : Store) (fields : FormFields) : FormFields :=
  let f1 :=
    match getItem s "ow_apiKey" with
    | some v => if v = "" then fields else { fields with apiKey := v }
    | none => fields
  let f2 :=
    match getItem s "ow_city" with
    | some v => if v = "" then f1 else { f1 with city := v }
    | none => f1
  match getItem s "ow_metric" with
  | some v => if v = "" then f2
      else if metricConfigKeys.contains v then { f2 with metric := v } else f2
  | none => f2

/-- Events of the NASA-lab request lifecycle on the single UI thread
(src/unnamed/part_000 lines 164-220): a valid form submission, the resolution
of the fetch promise of request i (the handler renders its result set), or its
rejection (an aborted fetch rejects with AbortError and handleError returns
without rendering). -/
inductive Ev where
  | submit
  | resolve (i : Nat)
  | reject (i : Nat)
deriving DecidableEq, Repr

/-- State of the fetch controller: nextId numbers the submissions, active is
the id owned by activeController, aborted collects ids whose controller was
aborted (lines 187-189), completed the ids whose promise already settled
successfully, rendered the log of result sets written to the DOM (line 216). -/
structure CtrlState where
  nextId : Nat
  active : Option Nat
  aborted : List Nat
  completed : List Nat
  rendered : List Nat
deriving DecidableEq, Repr

/-- Initial state on page load: no controller, nothing issued. -/
def ctrlInit : CtrlState :=
  { nextId := 0, active := none, aborted := [], completed := [], rendered := [] }

/-- Request i is live when it was issued and neither aborted nor settled. -/
def liveReq (s : CtrlState) (i : Nat) : Prop :=
  i < s.nextId ∧ i ∉ s.aborted ∧ i ∉ s.completed

/-- One step of the event-driven semantics. A submit aborts the previous
active controller (lines 187-189) and issues a fresh request. A resolve of
request i is only possible while i is live: an aborted fetch never resolves,
and a promise settles at most once; it appends the result set of i to the
render log. A reject of request i is possible once i was aborted and never
settled; handleError returns at once, so the state is unchanged. -/
def ctrlStep (s : CtrlState) : Ev → Option CtrlState
  | Ev.submit =>
    some { nextId := s.nextId + 1, active := some s.nextId,
           aborted := (match s.active with | some i => [i] | none => []) ++ s.aborted,
           completed := s.completed, rendered := s.rendered }
  | Ev.resolve i =>
    if i < s.nextId ∧ i ∉ s.aborted ∧ i ∉ s.completed then
      some { s with completed := i :: s.completed, rendered := i :: s.rendered }
    else none
  | Ev.reject i =>
    if i ∈ s.aborted ∧ i ∉ s.completed then some s else none

/-- Run of the controller over a list of events; none when an event is not
enabled in the current state. -/
def ctrlRun (s : CtrlState) : List Ev → Option CtrlState
  | [] => some s
  | e :: es =>
    match ctrlStep s e with
    | some t => ctrlRun t es
    | none => none

/-- Controller invariant: every live request is the one owned by the active
controller. -/
def ctrlInv (s : CtrlState) : Prop :=
  ∀ i, liveReq s i → s.active = some i

theorem ctrlStep_inv {s t : CtrlState} {e : Ev} (hinv : ctrlInv s)
    (hstep : ctrlStep s e = some t) : ctrlInv t := by
  cases e with
  | submit =>
    simp only [ctrlStep, Option.some.injEq] at hstep
    subst hstep
    intro i hi
    obtain ⟨hlt, hab, hco⟩ := hi
    simp only at hlt hab hco ⊢
    rcases Nat.lt_succ_iff_lt_or_eq.mp hlt with hlt' | heq
    · exfalso
      rcases Classical.em (liveReq s i) with hlive | hnot
      · have hact := hinv i hlive
        rw [hact] at hab
        simp at hab
      · unfold liveReq at hnot
        push_neg at hnot
        rcases Classical.em (i ∈ s.aborted) with h1 | h1
        · exact hab (by
            cases hA : s.active <;> simp [hA, h1])
        · exact hco (hnot hlt' h1)
    · simp [heq]
  | resolve i =>
    simp only [ctrlStep] at hstep
    split at hstep
    · simp only [Option.some.injEq] at hstep
      subst hstep
      intro j hj
      obtain ⟨hlt, hab, hco⟩ := hj
      simp only [List.mem_cons, not_or] at hco
      exact hinv j ⟨hlt, hab, hco.2⟩
    · exact absurd hstep (by simp)
  | reject i =>
    simp only [ctrlStep] at hstep
    split at hstep
    · simp only [Option.some.injEq] at hstep
      subst hstep
      exact hinv
    · exact absurd hstep (by simp)

theorem ctrlRun_inv {s t : CtrlState} {evs : List Ev} (hinv : ctrlInv s)
    (hrun : ctrlRun s evs = some t) : ctrlInv t := by
  induction evs generalizing s with
  | nil =>
    simp only [ctrlRun, Option.some.injEq] at hrun
    subst hrun
    exact hinv
  | cons e es ih =>
    simp only [ctrlRun] at hrun
    cases hstep : ctrlStep s e with
    | none => rw [hstep] at hrun; exact absurd hrun (by simp)
    | some u =>
      rw [hstep] at hrun
      exact ih (ctrlStep_inv hinv hstep) hrun

/-- State reached from the initial state by two valid submissions in quick
succession: the first request is aborted, the second owns the controller. -/
def afterTwoSubmits : CtrlState :=
  { nextId := 2, active := some 1, aborted := [0], completed := [], rendered := [] }

/-- Invariant used for the quick-succession scenario: request 0 stays aborted,
no id beyond 1 exists, and only request 1 ever reaches the render log. -/
def sndOnly (s : CtrlState) : Prop :=
  0 ∈ s.aborted ∧ s.nextId ≤ 2 ∧ ∀ i ∈ s.rendered, i = 1

theorem ctrlStep_sndOnly {s t : CtrlState} {e : Ev} (he : e ≠ Ev.submit)
    (h : sndOnly s) (hstep : ctrlStep s e = some t) : sndOnly t := by
  obtain ⟨hab0, hn2, hr⟩ := h
  cases e with
  | submit => exact absurd rfl he
  | resolve i =>
    simp only [ctrlStep] at hstep
    split at hstep
    · rename_i hcond
      obtain ⟨hlt, habi, _⟩ := hcond
      simp only [Option.some.injEq] at hstep
      subst hstep
      refine ⟨hab0, hn2, ?_⟩
      intro j hj
      simp only [List.mem_cons] at hj
      rcases hj with hj | hj
      · subst hj
        have hi0 : j ≠ 0 := fun h0 => habi (h0 ▸ hab0)
        omega
      · exact hr j hj
    · exact absurd hstep (by simp)
  | reject i =>
    simp only [ctrlStep] at hstep
    split at hstep
    · simp only [Option.some.injEq] at hstep
      subst hstep
      exact ⟨hab0, hn2, hr⟩
    · exact absurd hstep (by simp)

theorem ctrlRun_sndOnly {s t : CtrlState} {evs : List Ev}
    (hno : ∀ e ∈ evs, e ≠ Ev.submit) (h : sndOnly s)
    (hrun : ctrlRun s evs = some t) : sndOnly t := by
  induction evs generalizing s with
  | nil =>
    simp only [ctrlRun, Option.some.injEq] at hrun
    subst hrun
    exact h
  | cons e es ih =>
    simp only [ctrlRun] at hrun
    cases hstep : ctrlStep s e with
    | none => rw [hstep] at hrun; exact absurd hrun (by simp)
    | some u =>
      rw [hstep] at hrun
      exact ih (fun x hx => hno x (List.mem_cons_of_mem _ hx))
        (ctrlStep_sndOnly (hno e (List.mem_cons_self _ _)) h hstep) hrun

theorem jsTrim_length_le (s : List Char) : (jsTrim s).length ≤ s.length := by
  unfold jsTrim
  have h1 : (s.dropWhile isJsSpace).length ≤ s.length :=
    (List.dropWhile_sublist _).length_le
  have h2 : ((s.dropWhile isJsSpace).reverse.dropWhile isJsSpace).length ≤
      (s.dropWhile isJsSpace).reverse.length :=
    (List.dropWhile_sublist _).length_le
  simp only [List.length_reverse] at h2 ⊢
  omega

theorem processElements_eq_keepFirst (l : List Element) :
    ∀ seen : List GeoKey,
      processElements seen l = keepFirst seen (l.filterMap mapElement) := by
  induction l with
  | nil => intro seen; rfl
  | cons e rest ih =>
    intro seen
    cases h : mapElement e with
    | none =>
      simp only [processElements, h, List.filterMap_cons]
      exact ih seen
    | some p =>
      simp only [processElements, h, List.filterMap_cons, keepFirst]
      split_ifs with hkey
      · exact ih seen
      · rw [ih (exactKey p :: seen)]

theorem keepFirst_key_not_mem (l : List Place) :
    ∀ (seen : List GeoKey) (p : Place),
      p ∈ keepFirst seen l → exactKey p ∉ seen := by
  induction l with
  | nil => intro seen p hp; simp [keepFirst] at hp
  | cons q rest ih =>
    intro seen p hp
    by_cases hq : exactKey q ∈ seen
    · simp only [keepFirst] at hp
      rw [if_pos hq] at hp
      exact ih seen p hp
    · simp only [keepFirst] at hp
      rw [if_neg hq] at hp
      rcases List.mem_cons.mp hp with heq | hp'
      · subst heq; exact hq
      · have hni := ih _ p hp'
        intro hmem
        exact hni (List.mem_cons_of_mem _ hmem)

theorem keepFirst_nodupKeys (l : List Place) :
    ∀ seen : List GeoKey,
      (keepFirst seen l).Pairwise (fun a b => exactKey a ≠ exactKey b) := by
  induction l with
  | nil => intro seen; simp [keepFirst]
  | cons q rest ih =>
    intro seen
    by_cases hq : exactKey q ∈ seen
    · simp only [keepFirst]
      rw [if_pos hq]
      exact ih seen
    · simp only [keepFirst]
      rw [if_neg hq]
      refine List.Pairwise.cons ?_ (ih _)
      intro b hb heq
      have hni := keepFirst_key_not_mem rest (exactKey q :: seen) b hb
      apply hni
      rw [← heq]
      exact List.mem_cons_self _ _

/-- C1: the fetch controller aborts any previous pending request on submit, so
in every reachable state at most one request is live, and after two
submissions in quick succession (with no further submission) the first
request is never rendered: every rendered result set is the second one. -/
theorem singleFlight_claim :
    (∀ (evs : List Ev) (s' : CtrlState), ctrlRun ctrlInit evs = some s' →
        ∀ i j, liveReq s' i → liveReq s' j → i = j) ∧
    ctrlRun ctrlInit [Ev.submit, Ev.submit] = some afterTwoSubmits ∧
    (∀ (evs : List Ev) (s' : CtrlState), (∀ e ∈ evs, e ≠ Ev.submit) →
        ctrlRun afterTwoSubmits evs = some s' →
        0 ∉ s'.rendered ∧ ∀ i ∈ s'.rendered, i = 1) := by
  refine ⟨?_, by decide, ?_⟩
  · intro evs s' hrun i j hi hj
    have hinit : ctrlInv ctrlInit := by
      intro k hk
      exact absurd hk.1 (by simp [ctrlInit])
    have hinv := ctrlRun_inv hinit hrun
    have h1 := hinv i hi
    have h2 := hinv j hj
    rw [h1] at h2
    exact Option.some.inj h2
  · intro evs s' hno hrun
    have hstart : sndOnly afterTwoSubmits := by
      refine ⟨by decide, by decide, ?_⟩
      intro i hi
      simp [afterTwoSubmits] at hi
    obtain ⟨hab, hn, hr⟩ := ctrlRun_sndOnly hno hstart hrun
    exact ⟨fun h0 => absurd (hr 0 h0) (by decide), hr⟩

/-- Witness for C1 at the concrete run submit, submit, resolve 1. -/
theorem singleFlight_claim_check :
    (0 : Nat) ∉ [(1 : Nat)] :=
  (singleFlight_claim.2.2 [Ev.resolve 1]
    { nextId := 2, active := some 1, aborted := [0], completed := [1], rendered := [1] }
    (by decide) (by decide)).1

/-- C2: for both keyword normalizers the output is sorted by descending weight
or relevance, and for every weight value the equal-weight results appear in
their arrival order (the filter of the output at that value equals the filter
of the pre-sort arrival list). -/
theorem keywords_sorted_stable_claim :
    ∀ (d₁ : TwPayload) (d₂ : McPayload),
      (extractKeywordsTw d₁).Sorted (byKeyDesc TwItem.weight) ∧
      (∀ w : ℚ, (extractKeywordsTw d₁).filter (fun i => i.weight == w) =
          (twArrival d₁).filter (fun i => i.weight == w)) ∧
      (extractKeywordsMc d₂).Sorted (byKeyDesc McItem.relevance) ∧
      (∀ w : ℚ, (extractKeywordsMc d₂).filter (fun i => i.relevance == w) =
          (mcArrival d₂).filter (fun i => i.relevance == w)) := by
  intro d₁ d₂
  exact ⟨List.sorted_insertionSort _ _,
    fun w => filter_key_insertionSort TwItem.weight (twArrival d₁) w,
    List.sorted_insertionSort _ _,
    fun w => filter_key_insertionSort McItem.relevance (mcArrival d₂) w⟩

/-- Two Overpass elements with the same name whose latitudes differ only in
the eighth decimal: their keys rounded to five decimals coincide, their exact
keys do not. -/
def cePayload : List Element :=
  [ { etype := EType.node, id := 1, lat := some 1, lon := some 2, center := none,
      tags := [("name", "Музей")] },
    { etype := EType.node, id := 2, lat := some (1 + 1 / 100000000), lon := some 2,
      center := none, tags := [("name", "Музей")] } ]

/-- Normalized form of the first element of cePayload. -/
def cePlace1 : Place :=
  Place.mk 1 EType.node (some 1) (some 2) "Музей" "Объект" "" [("name", "Музей")]

/-- Normalized form of the second element of cePayload. -/
def cePlace2 : Place :=
  Place.mk 2 EType.node (some (1 + 1 / 100000000)) (some 2) "Музей" "Объект" ""
    [("name", "Музей")]

/-- Counterexample to C3 as stated: fetchPlaces does not deduplicate by the
rounded key, so on cePayload the output keeps two places whose rounded keys
are equal. -/
theorem geo_dedup_rounded_refuted :
    ¬ ((fetchPlacesNormalize cePayload).map roundedKey).Nodup := by
  have hne : ((1 : ℚ) + 1 / 100000000) ≠ 1 := by norm_num
  have hm1 : mapElement (Element.mk EType.node 1 (some 1) (some 2) none
      [("name", "Музей")]) = some cePlace1 := rfl
  have hm2 : mapElement (Element.mk EType.node 2 (some (1 + 1 / 100000000)) (some 2)
      none [("name", "Музей")]) = some cePlace2 := rfl
  have hle : nameLe cePlace1 cePlace2 := by decide
  have hp : processElements [] cePayload = [cePlace1, cePlace2] := by
    simp only [cePayload, processElements, hm1, hm2]
    simp [exactKey, cePlace1, cePlace2, hne]
  have hlist : fetchPlacesNormalize cePayload = [cePlace1, cePlace2] := by
    unfold fetchPlacesNormalize
    rw [hp]
    simp [List.insertionSort, List.orderedInsert, hle]
  have hr : round ((1 : ℚ) * 100000) = round (((1 : ℚ) + 1 / 100000000) * 100000) := by
    rw [round_eq, round_eq]
    norm_num
  have hkey : roundedKey cePlace1 = roundedKey cePlace2 := by
    simp only [roundedKey, round5, cePlace1, cePlace2, Option.map_some']
    rw [hr]
  rw [hlist]
  simp only [List.map_cons, List.map_nil]
  rw [← hkey]
  simp

/-- C3 amended: fetchPlaces deduplicates by the exact key (name, latitude,
longitude), keeping for each key the first occurrence in arrival order
(keepFirst), and the output keys are pairwise distinct. -/
theorem geo_dedup_exact_claim :
    ∀ elements : List Element,
      fetchPlacesNormalize elements =
        List.insertionSort nameLe (keepFirst [] (elements.filterMap mapElement)) ∧
      ((fetchPlacesNormalize elements).map exactKey).Nodup := by
  intro els
  have heq : processElements [] els = keepFirst [] (els.filterMap mapElement) :=
    processElements_eq_keepFirst els []
  constructor
  · unfold fetchPlacesNormalize
    rw [heq]
  · unfold fetchPlacesNormalize
    rw [List.Nodup, List.pairwise_map]
    have hperm := List.perm_insertionSort nameLe (processElements [] els)
    refine (hperm.pairwise_iff (fun hxy => Ne.symm hxy)).mpr ?_
    rw [heq]
    exact keepFirst_nodupKeys _ []

/-- C4: the normalizers are total and substitute placeholders for missing
optional fields: a missing or empty description truncates to the placeholder,
a keyword entry whose weight does not convert to a number is kept with weight
zero, and an Overpass node without tags normalizes to the placeholder name and
category with empty address. -/
theorem normalize_total_claim :
    truncate none 200 = descriptionPlaceholder ∧
    truncate (some []) 200 = descriptionPlaceholder ∧
    (∀ (d : TwPayload) (label : String),
        (label, (none : Option ℚ)) ∈ d.keyword.getD [] → label ≠ "" →
        ({ label := label, weight := 0, source := "Twinword" } : TwItem) ∈
          extractKeywordsTw d) ∧
    (∀ e : Element, e.etype = EType.node → e.tags = [] →
        mapElement e =
          some (Place.mk e.id EType.node e.lat e.lon "Без названия" "Объект" "" [])) := by
  refine ⟨rfl, rfl, ?_, ?_⟩
  · intro d label hmem hlab
    unfold extractKeywordsTw
    rw [List.mem_insertionSort]
    unfold twArrival
    rw [List.mem_filter]
    constructor
    · exact List.mem_map.mpr ⟨(label, none), hmem, rfl⟩
    · simpa using hlab
  · intro e h1 h2
    unfold mapElement latLngOf
    rw [h1, h2]
    rfl

/-- Witness for C4 at a concrete keyword payload with a NaN weight and a
concrete tagless node. -/
theorem normalize_total_claim_check :
    ({ label := "луна", weight := 0, source := "Twinword" } : TwItem) ∈
      extractKeywordsTw ⟨some [("луна", none)]⟩ ∧
    mapElement (Element.mk EType.node 7 (some 1) (some 2) none []) =
      some (Place.mk 7 EType.node (some 1) (some 2) "Без названия" "Объект" "" []) :=
  ⟨normalize_total_claim.2.2.1 ⟨some [("луна", none)]⟩ "луна" (by decide) (by decide),
   normalize_total_claim.2.2.2 (Element.mk EType.node 7 (some 1) (some 2) none [])
     rfl rfl⟩

/-- C5: in each lab, a form state whose required query field trims to the
empty string makes the submit handler return a validation message; no request
descriptor is produced, so no network call is issued. -/
theorem empty_query_no_request_claim :
    (∀ queryRaw mediaType yearRaw : String, jsTrimS queryRaw = "" →
        nasaSubmit queryRaw mediaType yearRaw =
          SubmitOutcome.validation "Введите поисковый запрос.") ∧
    (∀ queryRaw : String, jsTrimS queryRaw = "" →
        lab3Submit queryRaw = SubmitOutcome.validation "Введите адрес или город.") ∧
    (∀ apiKeyRaw cityRaw : String, jsTrimS apiKeyRaw = "" ∨ jsTrimS cityRaw = "" →
        lab5Submit apiKeyRaw cityRaw =
          SubmitOutcome.validation "Введите API ключ и город") := by
  refine ⟨?_, ?_, ?_⟩
  · intro q mt y h
    simp [nasaSubmit, h]
  · intro q h
    simp [lab3Submit, h]
  · intro a c h
    simp only [lab5Submit]
    rw [if_pos h]

/-- Witness for C5 at whitespace-only and empty query fields. -/
theorem empty_query_no_request_check :
    nasaSubmit " " "all" "2020" = SubmitOutcome.validation "Введите поисковый запрос." ∧
    lab3Submit "" = SubmitOutcome.validation "Введите адрес или город." ∧
    lab5Submit "k" " " = SubmitOutcome.validation "Введите API ключ и город" :=
  ⟨empty_query_no_request_claim.1 " " "all" "2020" (by decide),
   empty_query_no_request_claim.2.1 "" (by decide),
   empty_query_no_request_claim.2.2 "k" " " (Or.inr (by decide))⟩

/-- C6: the NASA year filter rejects 1850 with a validation message before any
request, while 2020 passes validation and appears as both the year_start and
year_end parameters of the issued request. -/
theorem year_filter_claim :
    nasaSubmit "moon" "image" "1850" = SubmitOutcome.validation yearRangeMsg ∧
    nasaSubmit "moon" "image" "2020" =
      SubmitOutcome.request [("q", "moon"), ("page", "1"), ("media_type", "image"),
        ("year_start", "2020"), ("year_end", "2020")] := by
  constructor
  · decide
  · decide

/-- C7: the preferences written by persistPreferences after a successful
submission (non-empty key and city, metric among the configured ones) are
exactly what restorePreferences reads back into the form fields on the next
load, whatever the previous store and field contents were. -/
theorem preferences_roundtrip_claim :
    ∀ (s : Store) (fields : FormFields) (apiKey city metric : String),
      apiKey ≠ "" → city ≠ "" → metricConfigKeys.contains metric = true →
      restorePreferences (persistPreferences apiKey city metric s) fields =
        { apiKey := apiKey, city := city, metric := metric } := by
  intro s f k c m hk hc hm
  have hm' : m ≠ "" := by
    intro h0
    rw [h0] at hm
    exact absurd hm (by decide)
  have h1 : getItem (persistPreferences k c m s) "ow_apiKey" = some k := by
    simp [getItem, persistPreferences, setItem]
  have h2 : getItem (persistPreferences k c m s) "ow_city" = some c := by
    simp [getItem, persistPreferences, setItem]
  have h3 : getItem (persistPreferences k c m s) "ow_metric" = some m := by
    simp [getItem, persistPreferences, setItem]
  have hmem : m ∈ metricConfigKeys := by simpa using hm
  unfold restorePreferences
  rw [h1, h2, h3]
  simp [hk, hc, hm', hmem]

/-- Witness for C7 with an empty store and cleared fields. -/
theorem preferences_roundtrip_check :
    restorePreferences (persistPreferences "KEY" "Москва" "temp" (fun _ => none))
        { apiKey := "", city := "", metric := "feels_like" } =
      { apiKey := "KEY", city := "Москва", metric := "temp" } :=
  preferences_roundtrip_claim (fun _ => none)
    { apiKey := "", city := "", metric := "feels_like" } "KEY" "Москва" "temp"
    (by decide) (by decide) (by decide)

/-- C8: an aborted fetch is a silent no-op: handleError leaves the status text
untouched on an AbortError, and writes the failure message otherwise. -/
theorem abort_silent_claim :
    ∀ (e : JsError) (status : String),
      (e.name = "AbortError" → handleError e status = status) ∧
      (e.name ≠ "AbortError" → handleError e status = fetchFailedMsg) := by
  intro e st
  constructor
  · intro h
    simp [handleError, h]
  · intro h
    simp [handleError, h]

/-- Witness for C8 at a concrete AbortError. -/
theorem abort_silent_check :
    handleError { name := "AbortError", message := "The operation was aborted." }
        "Загрузка..." = "Загрузка..." :=
  (abort_silent_claim { name := "AbortError", message := "The operation was aborted." }
    "Загрузка...").1 rfl

/-- Counterexample to C9 as stated: the empty text has length at most 200 yet
truncate does not return it unchanged (the falsy check substitutes the
placeholder first). -/
theorem truncate_unchanged_refuted :
    ([] : List Char).length ≤ 200 ∧ truncate (some []) 200 ≠ [] := by decide

/-- C9 amended: every non-empty text of length at most 200 is returned
unchanged, and every longer text is cut to the trimmed first 199 characters
(within the 200-character budget) followed by the ellipsis marker. -/
theorem truncate_amended_claim :
    (∀ t : List Char, t ≠ [] → t.length ≤ 200 → truncate (some t) 200 = t) ∧
    (∀ t : List Char, 200 < t.length →
        truncate (some t) 200 = jsTrim (t.take 199) ++ ('.' :: '.' :: '.' :: []) ∧
        (jsTrim (t.take 199)).length ≤ 199) := by
  constructor
  · intro t h1 h2
    simp [truncate, h1, h2]
  · intro t h
    have hnil : t ≠ [] := by
      intro h0
      rw [h0] at h
      simp at h
    have hgt : ¬ t.length ≤ 200 := not_le.mpr h
    refine ⟨by simp [truncate, hnil, hgt], ?_⟩
    have hb1 : (jsTrim (t.take 199)).length ≤ (t.take 199).length :=
      jsTrim_length_le _
    have hb2 : (t.take 199).length ≤ 199 := by
      simp [List.length_take]
    omega

/-- Witness for C9 at a short text and a 201-character text. -/
theorem truncate_amended_check :
    truncate (some ['a']) 200 = ['a'] ∧
    (jsTrim ((List.replicate 201 'a').take 199)).length ≤ 199 :=
  ⟨truncate_amended_claim.1 ['a'] (by decide) (by decide),
   (truncate_amended_claim.2 (List.replicate 201 'a')
     (by rw [List.length_replicate]; norm_num)).2⟩

theorem escapeChar_no_markup (b c : Char) (hc : c ∈ escapeChar b) :
    c ≠ '<' ∧ c ≠ '>' ∧ c ≠ '"' ∧ c ≠ apos := by
  unfold escapeChar at hc
  split_ifs at hc with h1 h2 h3 h4 h5
  · fin_cases hc <;> decide
  · fin_cases hc <;> decide
  · fin_cases hc <;> decide
  · fin_cases hc <;> decide
  · fin_cases hc <;> decide
  · have hcb : c = b := by simpa using hc
    subst hcb
    exact ⟨h2, h3, h4, h5⟩

/-- C10: escapeHtml replaces every special character by its HTML entity, so no
character of its output is a literal angle bracket or quote; in particular the
keyword label cell built from escapeHtml contains no unescaped markup from the
payload. -/
theorem escape_html_claim :
    ∀ (text : Option (List Char)) (c : Char), c ∈ escapeHtml text →
      c ≠ '<' ∧ c ≠ '>' ∧ c ≠ '"' ∧ c ≠ apos := by
  intro t c hc
  unfold escapeHtml at hc
  rw [List.mem_flatMap] at hc
  obtain ⟨b, _, hb⟩ := hc
  exact escapeChar_no_markup b c hb

/-- Witness for C10 at a payload containing markup. -/
theorem escape_html_check :
    'a' ≠ '<' ∧ 'a' ≠ '>' ∧ 'a' ≠ '"' ∧ 'a' ≠ apos :=
  escape_html_claim (some ('<' :: 'a' :: [])) 'a' (by decide)
